import Mathlib

/-!
Shallow embedding of the quiz backend's grading core (`backend/crud.py`,
`backend/schemas.py`, `backend/models.py`) together with the public safe
question view served by `backend/main.py`.  Python dictionaries are modelled
by their observable lookup functions with last-insertion-wins semantics;
Python `None` becomes `Option.none`.
-/

namespace Quiz

/-- A choice row as stored (`models.Choice`): id, display text and the
`is_correct` flag. -/
structure Choice where
  id : Int
  text : String
  is_correct : Bool
deriving DecidableEq, Repr

/-- A question row with its eagerly loaded choices (`models.Question`). -/
structure Question where
  id : Int
  text : String
  choices : List Choice
deriving DecidableEq, Repr

/-- One submitted answer pair (`schemas.UserAnswer`). -/
structure UserAnswer where
  question_id : Int
  choice_id : Int
deriving DecidableEq, Repr

/-- Per-question result record (`schemas.QuestionResult`). -/
structure QuestionResult where
  question_id : Int
  question_text : String
  user_answer_text : String
  correct_answer_text : String
  is_correct : Bool
deriving DecidableEq, Repr

/-- Final quiz result (`schemas.QuizResult`). -/
structure QuizResult where
  score : Int
  total : Int
  results : List QuestionResult
deriving DecidableEq, Repr

/-- Lookup in the dict comprehension
`{answer.question_id: answer.choice_id for answer in user_answers.answers}`:
when a key occurs several times the last insertion wins, so the lookup
returns the choice id of the last pair carrying the key, and `none`
(Python `None` from `dict.get`) when the key is absent. -/
def user_answers_map_get (answers : List UserAnswer) (qid : Int) : Option Int :=
  (answers.reverse.find? (fun a => a.question_id == qid)).map (fun a => a.choice_id)

/-- The inner loop of the answer-key construction: scan a question's choices
in stored order and take the id of the first one flagged correct
(`for choice in question.choices: if choice.is_correct: ...; break`). -/
def first_correct_choice_id (question : Question) : Option Int :=
  (question.choices.find? (fun c => c.is_correct)).map (fun c => c.id)

/-- Lookup in the `answer_key` dict: the loop inserts, for each question
having a correct choice, the id of its first correct choice, keyed by the
question's id; a later question with the same id overwrites an earlier one,
so the lookup returns the entry of the last question with the key that has a
correct choice. -/
def answer_key_get (all_questions : List Question) (qid : Int) : Option Int :=
  (all_questions.reverse.find?
      (fun q => q.id == qid && (first_correct_choice_id q).isSome)).bind
    first_correct_choice_id

/-- The text-resolution loop over a question's choices: starting from the
accumulators `"Unanswered"` and `""`, each choice whose id equals the looked
up id overwrites the corresponding accumulator with its text.  One fold per
accumulator; `some c.id == u` is Python's `choice.id == user_choice_id`
(an `int == None` comparison is `False`). -/
def text_scan : List Choice → Option Int → String → String
  | [], _, acc => acc
  | c :: rest, u, acc => text_scan rest u (if some c.id == u then c.text else acc)

/-- The body of the per-question loop of `calculate_score`, producing one
`QuestionResult` from the two dict lookups. -/
def grade_question (uam ak : Int → Option Int) (question : Question) :
    QuestionResult :=
  let user_choice_id := uam question.id
  let correct_choice_id := ak question.id
  { question_id := question.id
    question_text := question.text
    user_answer_text := text_scan question.choices user_choice_id "Unanswered"
    correct_answer_text := text_scan question.choices correct_choice_id ""
    is_correct := user_choice_id.isSome && (user_choice_id == correct_choice_id) }

/-- `crud.calculate_score`: grade every question of the store snapshot, in
snapshot order, against the submitted answers; the running score counts the
results marked correct. -/
def calculate_score (all_questions : List Question)
    (user_answers : List UserAnswer) : QuizResult :=
  let detailed_results :=
    all_questions.map
      (grade_question (user_answers_map_get user_answers)
        (answer_key_get all_questions))
  { score := (detailed_results.countP (fun r => r.is_correct) : Int)
    total := (all_questions.length : Int)
    results := detailed_results }

/-- A choice in the public safe view (`schemas.Choice`): only id and text,
no `is_correct` field exists in this type at all. -/
structure SafeChoice where
  id : Int
  text : String
deriving DecidableEq, Repr

/-- A question in the public safe view (`schemas.Question`). -/
structure SafeQuestion where
  id : Int
  text : String
  choices : List SafeChoice
deriving DecidableEq, Repr

/-- Serialization of one stored choice into the safe view: `is_correct` is
dropped. -/
def choice_to_safe (c : Choice) : SafeChoice :=
  { id := c.id, text := c.text }

/-- Serialization of one stored question into the safe view. -/
def question_to_safe (q : Question) : SafeQuestion :=
  { id := q.id, text := q.text, choices := q.choices.map choice_to_safe }

/-- `main.read_questions` with `response_model=List[schemas.Question]`:
every stored question, serialized through the safe view. -/
def read_questions (all_questions : List Question) : List SafeQuestion :=
  all_questions.map question_to_safe

/-- Two questions that agree on everything except possibly the `is_correct`
flags of their choices. -/
def same_up_to_flags (q q' : Question) : Prop :=
  q.id = q'.id ∧ q.text = q'.text ∧
    List.Forall₂ (fun c c' : Choice => c.id = c'.id ∧ c.text = c'.text)
      q.choices q'.choices

/-! ## Helper lemmas -/

/-- Searching a list is reading the head of its filtration. -/
theorem find?_eq_head?_filter {α : Type} (l : List α) (p : α → Bool) :
    l.find? p = (l.filter p).head? := by
  induction l with
  | nil => rfl
  | cons a t ih =>
    rw [List.find?_cons, List.filter_cons]
    cases h : p a
    · exact ih
    · simp

/-- Pre-filtering by a predicate implied by the search predicate does not
change the result of the search. -/
theorem find?_filter_of_imp {α : Type} (l : List α) (p f : α → Bool)
    (h : ∀ a, p a = true → f a = true) :
    (l.filter f).find? p = l.find? p := by
  induction l with
  | nil => rfl
  | cons a t ih =>
    rw [List.filter_cons, List.find?_cons]
    cases hf : f a
    · have hp : p a = false := by
        cases hp : p a
        · rfl
        · rw [h a hp] at hf; cases hf
      simp only [Bool.false_eq_true, if_false, ih, hp]
    · rw [if_pos rfl, List.find?_cons]
      cases hp : p a
      · exact ih
      · rfl

/-- If exactly one element of a list satisfies the predicate, the search
returns it. -/
theorem find?_eq_some_of_unique {α : Type} {l : List α} {p : α → Bool} {x : α}
    (hx : x ∈ l) (hpx : p x = true) (huniq : ∀ y ∈ l, p y = true → y = x) :
    l.find? p = some x := by
  have hs : (l.find? p).isSome := List.find?_isSome.mpr ⟨x, hx, hpx⟩
  obtain ⟨y, hy⟩ := Option.isSome_iff_exists.mp hs
  rw [hy]
  exact congrArg some (huniq y (List.mem_of_find?_eq_some hy) (List.find?_some hy))

/-- Membership from an indexed lookup. -/
theorem mem_of_getElem? {α : Type} {l : List α} {i : Nat} {a : α}
    (h : l[i]? = some a) : a ∈ l := by
  obtain ⟨hlt, he⟩ := List.getElem?_eq_some.mp h
  exact he ▸ List.getElem_mem hlt

/-- When question ids are pairwise distinct, the answer-key lookup for a
stored question is exactly its own first flagged-correct choice id. -/
theorem answer_key_get_of_nodup {Q : List Question} {q : Question}
    (hnd : (Q.map (fun q => q.id)).Nodup) (hq : q ∈ Q) :
    answer_key_get Q q.id = first_correct_choice_id q := by
  have hinj := List.inj_on_of_nodup_map hnd
  unfold answer_key_get
  cases hfc : first_correct_choice_id q with
  | none =>
    have hnone : Q.reverse.find?
        (fun q' => q'.id == q.id && (first_correct_choice_id q').isSome) = none := by
      rw [List.find?_eq_none]
      intro y hy
      simp only [Bool.and_eq_true, beq_iff_eq, not_and]
      intro hid
      have hyq : y = q := hinj (List.mem_reverse.mp hy) hq hid
      rw [hyq, hfc]
      simp
    rw [hnone]
    simp [hfc]
  | some cid =>
    have hq' : q ∈ Q.reverse := List.mem_reverse.mpr hq
    have hfind : Q.reverse.find?
        (fun q' => q'.id == q.id && (first_correct_choice_id q').isSome) = some q :=
      find?_eq_some_of_unique hq' (by simp [hfc]) (fun y hy hpy => by
        simp only [Bool.and_eq_true, beq_iff_eq] at hpy
        exact hinj (List.mem_reverse.mp hy) hq hpy.1)
    rw [hfind]
    simp [hfc]

/-- The text-resolution fold returns the accumulator untouched when no
choice matches the looked-up id. -/
theorem text_scan_of_no_match {choices : List Choice} {u : Option Int}
    (h : ∀ c ∈ choices, (some c.id == u) = false) (acc : String) :
    text_scan choices u acc = acc := by
  induction choices generalizing acc with
  | nil => rfl
  | cons c rest ih =>
    rw [text_scan, h c (List.mem_cons_self c rest)]
    simp only [Bool.false_eq_true, if_false]
    exact ih (fun c' hc' => h c' (List.mem_cons_of_mem c hc')) acc

/-- A `None` lookup never matches any choice, so the accumulator survives. -/
theorem text_scan_none (choices : List Choice) (acc : String) :
    text_scan choices none acc = acc :=
  @text_scan_of_no_match choices none (fun _ _ => rfl) acc

/-- With pairwise distinct choice ids, the fold resolves the id of a member
choice to that choice's text. -/
theorem text_scan_of_mem {choices : List Choice} {c : Choice}
    (hnd : (choices.map (fun c => c.id)).Nodup) (hc : c ∈ choices)
    (acc : String) :
    text_scan choices (some c.id) acc = c.text := by
  induction choices generalizing acc with
  | nil => cases hc
  | cons d rest ih =>
    simp only [List.map_cons, List.nodup_cons] at hnd
    rw [text_scan]
    rcases List.mem_cons.mp hc with rfl | hc'
    · rw [if_pos (by simp)]
      apply text_scan_of_no_match
      intro e he
      simp only [beq_eq_false_iff_ne, ne_eq, Option.some.injEq]
      intro heq
      exact hnd.1 (heq ▸ List.mem_map_of_mem (fun c => c.id) he)
    · have hne : (some d.id == some c.id) = false := by
        simp only [beq_eq_false_iff_ne, ne_eq, Option.some.injEq]
        intro heq
        exact hnd.1 (heq ▸ List.mem_map_of_mem (fun c => c.id) hc')
      rw [hne]
      simp only [Bool.false_eq_true, if_false]
      exact ih hnd.2 hc' acc

/-- The i-th result of a grading run is the graded i-th question. -/
theorem results_getElem? (Q : List Question) (S : List UserAnswer)
    {i : Nat} {q : Question} (hq : Q[i]? = some q) :
    (calculate_score Q S).results[i]? =
      some (grade_question (user_answers_map_get S) (answer_key_get Q) q) := by
  simp [calculate_score, List.getElem?_map, hq]

/-! ## Claim theorems -/

/-- Claim C1: for every question set Q and submission S, the graded result
has total equal to the number of questions and exactly one result per
question, in the same order as Q (position i of the results carries the id
of position i of Q; no sort is applied). -/
theorem grade_shape (Q : List Question) (S : List UserAnswer) :
    (calculate_score Q S).total = (Q.length : Int) ∧
    (calculate_score Q S).results.length = Q.length ∧
    ∀ i : Nat, ((calculate_score Q S).results[i]?).map (fun r => r.question_id)
      = (Q[i]?).map (fun q => q.id) := by
  refine ⟨rfl, by simp [calculate_score], fun i => ?_⟩
  cases hq : Q[i]? with
  | none => simp [calculate_score, List.getElem?_map, hq]
  | some q => simp [calculate_score, List.getElem?_map, hq, grade_question]

/-- Claim C2: the score of a graded quiz always satisfies
0 ≤ score ≤ total = number of questions. -/
theorem grade_score_bounds (Q : List Question) (S : List UserAnswer) :
    0 ≤ (calculate_score Q S).score ∧
      (calculate_score Q S).score ≤ (calculate_score Q S).total := by
  constructor
  · exact Int.natCast_nonneg _
  · have h := @List.countP_le_length QuestionResult (fun r => r.is_correct)
      (Q.map (grade_question (user_answers_map_get S) (answer_key_get Q)))
    rw [List.length_map] at h
    exact Int.ofNat_le.mpr h

/-- Claim C5: grading the empty submission gives score 0 and every
per-question result carries the literal sentinel "Unanswered" with
is_correct false. -/
theorem grade_empty_submission (Q : List Question) :
    (calculate_score Q []).score = 0 ∧
    ∀ r ∈ (calculate_score Q []).results,
      r.user_answer_text = "Unanswered" ∧ r.is_correct = false := by
  constructor
  · simp only [calculate_score, List.countP_map, Int.natCast_eq_zero]
    rw [List.countP_eq_zero]
    intro q hq
    simp [Function.comp, grade_question, user_answers_map_get]
  · intro r hr
    simp only [calculate_score, List.mem_map] at hr
    obtain ⟨q, hq, rfl⟩ := hr
    refine ⟨?_, ?_⟩
    · simp [grade_question, user_answers_map_get, text_scan_none]
    · simp [grade_question, user_answers_map_get]

/-- Claim C5 witness at a concrete question set. -/
theorem grade_empty_submission_witness :
    (calculate_score [⟨1, "q", [⟨1, "a", true⟩]⟩] []).score = 0 ∧
    (⟨1, "q", "Unanswered", "a", false⟩ : QuestionResult).user_answer_text
        = "Unanswered" ∧
    (⟨1, "q", "Unanswered", "a", false⟩ : QuestionResult).is_correct = false :=
  ⟨(grade_empty_submission [⟨1, "q", [⟨1, "a", true⟩]⟩]).1,
    (grade_empty_submission [⟨1, "q", [⟨1, "a", true⟩]⟩]).2
      ⟨1, "q", "Unanswered", "a", false⟩ (by decide)⟩

/-- Claim C6: when a question id occurs several times in a submission,
exactly one submitted choice survives in the answer lookup and it is the
choice id of the last occurrence, in submission order. -/
theorem submission_last_value_wins (answers : List UserAnswer) (qid : Int) :
    user_answers_map_get answers qid =
      ((answers.filter (fun a => a.question_id == qid)).getLast?).map
        (fun a => a.choice_id) := by
  unfold user_answers_map_get
  rw [find?_eq_head?_filter, List.filter_reverse, List.head?_reverse]

/-- Claim C7: grading is deterministic: identical inputs give identical
outputs (in this embedding the grader is a pure function of its two
arguments, so it cannot mutate the question snapshot or the submission). -/
theorem grade_deterministic (Q Q' : List Question) (S S' : List UserAnswer)
    (hQ : Q = Q') (hS : S = S') :
    calculate_score Q S = calculate_score Q' S' := by
  rw [hQ, hS]

/-- Claim C7 witness at a concrete input. -/
theorem grade_deterministic_witness :
    calculate_score [⟨1, "q", [⟨1, "a", true⟩]⟩] [⟨1, 1⟩] =
      calculate_score [⟨1, "q", [⟨1, "a", true⟩]⟩] [⟨1, 1⟩] :=
  grade_deterministic [⟨1, "q", [⟨1, "a", true⟩]⟩] [⟨1, "q", [⟨1, "a", true⟩]⟩]
    [⟨1, 1⟩] [⟨1, 1⟩] rfl rfl

/-- Claim C10: submitted answers whose question id matches no question of
the set contribute nothing: grading S equals grading S restricted to the
pairs whose question id occurs among the questions. -/
theorem irrelevant_answers_ignored (Q : List Question) (S : List UserAnswer) :
    calculate_score Q S =
      calculate_score Q
        (S.filter (fun a => Q.any (fun q => q.id == a.question_id))) := by
  have key : ∀ q ∈ Q,
      user_answers_map_get
          (S.filter (fun a => Q.any (fun q' => q'.id == a.question_id))) q.id
        = user_answers_map_get S q.id := by
    intro q hq
    unfold user_answers_map_get
    rw [← List.filter_reverse, find?_filter_of_imp]
    intro a ha
    simp only [beq_iff_eq] at ha
    simp only [List.any_eq_true]
    exact ⟨q, hq, by simp [ha]⟩
  have hres : Q.map (grade_question
        (user_answers_map_get
          (S.filter (fun a => Q.any (fun q' => q'.id == a.question_id))))
        (answer_key_get Q))
      = Q.map (grade_question (user_answers_map_get S) (answer_key_get Q)) :=
    List.map_congr_left (fun q hq => by simp [grade_question, key q hq])
  simp only [calculate_score, hres]

/-- Claim C3: a submitted choice id that is absent or matches no choice of
the question (even one existing on another question) yields the sentinel
"Unanswered" and is_correct false; is_correct holds exactly when a
submitted choice id exists and equals the question's correct choice id. -/
theorem unmatched_submission_unanswered (Q : List Question) (S : List UserAnswer)
    (i : Nat) (q : Question) (r : QuestionResult)
    (hnd : (Q.map (fun q => q.id)).Nodup)
    (hq : Q[i]? = some q)
    (hr : (calculate_score Q S).results[i]? = some r) :
    ((user_answers_map_get S q.id = none ∨
        ∀ c ∈ q.choices, user_answers_map_get S q.id ≠ some c.id) →
      r.user_answer_text = "Unanswered" ∧ r.is_correct = false) ∧
    (r.is_correct = true ↔ ∃ cid, user_answers_map_get S q.id = some cid ∧
        first_correct_choice_id q = some cid) := by
  rw [results_getElem? Q S hq] at hr
  obtain rfl := (Option.some.inj hr).symm
  have hak := answer_key_get_of_nodup hnd (mem_of_getElem? hq)
  constructor
  · intro h
    cases hu : user_answers_map_get S q.id with
    | none =>
      exact ⟨by simp [grade_question, hu, text_scan_none],
        by simp [grade_question, hu]⟩
    | some uv =>
      have hall : ∀ c ∈ q.choices, uv ≠ c.id := by
        rcases h with h | h
        · rw [hu] at h; cases h
        · intro c hc heq
          exact h c hc (by rw [hu, heq])
      constructor
      · simp only [grade_question, hu]
        apply text_scan_of_no_match
        intro c hc
        simp only [beq_eq_false_iff_ne, ne_eq, Option.some.injEq]
        exact fun heq => hall c hc heq.symm
      · simp only [grade_question, hu]
        rw [hak]
        cases hfc : first_correct_choice_id q with
        | none => simp
        | some cid =>
          unfold first_correct_choice_id at hfc
          obtain ⟨c, hcfind, hcid⟩ := Option.map_eq_some'.mp hfc
          have hne : uv ≠ cid := hcid ▸ hall c (List.mem_of_find?_eq_some hcfind)
          simp [hne]
  · simp only [grade_question]
    rw [hak]
    cases hu : user_answers_map_get S q.id with
    | none => simp
    | some uv =>
      simp only [Option.isSome_some, Bool.true_and, beq_iff_eq,
        Option.some.injEq]
      constructor
      · intro h1
        exact ⟨uv, rfl, h1.symm⟩
      · rintro ⟨cid, rfl, h2⟩
        exact h2.symm

/-- Claim C3 witness: a submitted choice id matching no choice of the
question gives the sentinel and an incorrect mark. -/
theorem unmatched_submission_unanswered_witness :
    (⟨1, "q", "Unanswered", "a", false⟩ : QuestionResult).user_answer_text
        = "Unanswered" ∧
    (⟨1, "q", "Unanswered", "a", false⟩ : QuestionResult).is_correct = false :=
  (unmatched_submission_unanswered [⟨1, "q", [⟨1, "a", true⟩]⟩] [⟨1, 99⟩] 0
      ⟨1, "q", [⟨1, "a", true⟩]⟩ ⟨1, "q", "Unanswered", "a", false⟩
      (by decide) (by decide) (by decide)).1
    (Or.inr (by decide))

/-- Claim C4: the canonical correct choice of a question is the first of
its choices flagged correct; with no flagged choice the question has no
answer-key entry, its correct_answer_text is empty and its result is never
marked correct. -/
theorem first_flagged_choice_is_canonical (Q : List Question) (S : List UserAnswer)
    (i : Nat) (q : Question) (r : QuestionResult)
    (hnd : (Q.map (fun q => q.id)).Nodup)
    (hq : Q[i]? = some q)
    (hr : (calculate_score Q S).results[i]? = some r) :
    answer_key_get Q q.id
        = (q.choices.find? (fun c => c.is_correct)).map (fun c => c.id) ∧
    ((∀ c ∈ q.choices, c.is_correct = false) →
      answer_key_get Q q.id = none ∧
      r.correct_answer_text = "" ∧ r.is_correct = false) := by
  rw [results_getElem? Q S hq] at hr
  obtain rfl := (Option.some.inj hr).symm
  have hak := answer_key_get_of_nodup hnd (mem_of_getElem? hq)
  refine ⟨hak, fun h => ?_⟩
  have hfc : first_correct_choice_id q = none := by
    unfold first_correct_choice_id
    rw [List.find?_eq_none.mpr (fun c hc => by simp [h c hc])]
    rfl
  refine ⟨by rw [hak, hfc], ?_, ?_⟩
  · simp only [grade_question]
    rw [hak, hfc]
    exact text_scan_none q.choices ""
  · simp only [grade_question]
    rw [hak, hfc]
    cases hu : user_answers_map_get S q.id <;> simp [hu]

/-- Claim C4 witness: a question with no flagged-correct choice has no
answer-key entry, empty correct text and an incorrect mark. -/
theorem first_flagged_choice_is_canonical_witness :
    answer_key_get [⟨1, "q", [⟨1, "a", false⟩]⟩] 1
        = (([⟨1, "a", false⟩] : List Choice).find? (fun c => c.is_correct)).map
            (fun c => c.id) ∧
    (answer_key_get [⟨1, "q", [⟨1, "a", false⟩]⟩] 1 = none ∧
      (⟨1, "q", "a", "", false⟩ : QuestionResult).correct_answer_text = "" ∧
      (⟨1, "q", "a", "", false⟩ : QuestionResult).is_correct = false) :=
  ⟨(first_flagged_choice_is_canonical [⟨1, "q", [⟨1, "a", false⟩]⟩] [⟨1, 1⟩] 0
      ⟨1, "q", [⟨1, "a", false⟩]⟩ ⟨1, "q", "a", "", false⟩
      (by decide) (by decide) (by decide)).1,
   (first_flagged_choice_is_canonical [⟨1, "q", [⟨1, "a", false⟩]⟩] [⟨1, 1⟩] 0
      ⟨1, "q", [⟨1, "a", false⟩]⟩ ⟨1, "q", "a", "", false⟩
      (by decide) (by decide) (by decide)).2 (by decide)⟩

/-- Claim C9: a result marked correct shows the same user-answer and
correct-answer text, and that text is the text of the question's first
flagged-correct choice. -/
theorem correct_result_shows_correct_choice (Q : List Question)
    (S : List UserAnswer) (i : Nat) (q : Question) (r : QuestionResult)
    (hndq : (Q.map (fun q => q.id)).Nodup)
    (hndc : (q.choices.map (fun c => c.id)).Nodup)
    (hq : Q[i]? = some q)
    (hr : (calculate_score Q S).results[i]? = some r)
    (hc : r.is_correct = true) :
    r.user_answer_text = r.correct_answer_text ∧
    (q.choices.find? (fun c => c.is_correct)).map (fun c => c.text)
        = some r.user_answer_text := by
  rw [results_getElem? Q S hq] at hr
  obtain rfl := (Option.some.inj hr).symm
  have hak := answer_key_get_of_nodup hndq (mem_of_getElem? hq)
  simp only [grade_question, Bool.and_eq_true, beq_iff_eq,
    Option.isSome_iff_exists] at hc
  obtain ⟨⟨uv, huv⟩, heq⟩ := hc
  have hfc0 : first_correct_choice_id q = some uv := by rw [← hak, ← heq, huv]
  have hfc := hfc0
  unfold first_correct_choice_id at hfc
  obtain ⟨c, hcfind, hcid⟩ := Option.map_eq_some'.mp hfc
  have hcmem := List.mem_of_find?_eq_some hcfind
  have hutext : text_scan q.choices (user_answers_map_get S q.id) "Unanswered"
      = c.text := by
    rw [huv, ← hcid]
    exact text_scan_of_mem hndc hcmem "Unanswered"
  have hctext : text_scan q.choices (answer_key_get Q q.id) "" = c.text := by
    rw [hak, hfc0, ← hcid]
    exact text_scan_of_mem hndc hcmem ""
  constructor
  · simp only [grade_question]
    rw [hutext, hctext]
  · simp only [grade_question]
    rw [hcfind, hutext]
    simp

/-- Claim C9 witness: a correctly answered question shows the correct
choice's text on both sides. -/
theorem correct_result_shows_correct_choice_witness :
    (⟨1, "q", "a", "a", true⟩ : QuestionResult).user_answer_text
        = (⟨1, "q", "a", "a", true⟩ : QuestionResult).correct_answer_text ∧
    (([⟨1, "a", true⟩] : List Choice).find? (fun c => c.is_correct)).map
        (fun c => c.text)
      = some (⟨1, "q", "a", "a", true⟩ : QuestionResult).user_answer_text :=
  correct_result_shows_correct_choice [⟨1, "q", [⟨1, "a", true⟩]⟩] [⟨1, 1⟩] 0
    ⟨1, "q", [⟨1, "a", true⟩]⟩ ⟨1, "q", "a", "a", true⟩
    (by decide) (by decide) (by decide) (by decide) (by decide)

/-- Helper for the safe view: serializing choices ignores their
is_correct flags. -/
theorem map_choice_to_safe_congr {cs cs' : List Choice}
    (h : List.Forall₂ (fun c c' : Choice => c.id = c'.id ∧ c.text = c'.text)
      cs cs') :
    cs.map choice_to_safe = cs'.map choice_to_safe := by
  induction h with
  | nil => rfl
  | cons hc ht ih =>
    simp only [List.map_cons, ih]
    congr 1
    unfold choice_to_safe
    rw [hc.1, hc.2]

/-- Helper for the safe view: serializing a question ignores the
is_correct flags of its choices. -/
theorem question_to_safe_congr {q q' : Question} (h : same_up_to_flags q q') :
    question_to_safe q = question_to_safe q' := by
  obtain ⟨hid, htext, hch⟩ := h
  unfold question_to_safe
  rw [hid, htext, map_choice_to_safe_congr hch]

/-- Claim C8: the safe question view exposes only ids and texts; the type
of the view has no is_correct field at all, and two question sets that
differ only in their is_correct flags serialize to identical safe views. -/
theorem safe_view_hides_correct_flags (Q Q' : List Question)
    (h : List.Forall₂ same_up_to_flags Q Q') :
    read_questions Q = read_questions Q' := by
  unfold read_questions
  induction h with
  | nil => rfl
  | cons hq ht ih =>
    simp only [List.map_cons, ih]
    rw [question_to_safe_congr hq]

/-- Claim C8 witness: flipping a correct flag leaves the safe view
unchanged. -/
theorem safe_view_hides_correct_flags_witness :
    read_questions [⟨1, "q", [⟨1, "a", true⟩]⟩]
      = read_questions [⟨1, "q", [⟨1, "a", false⟩]⟩] :=
  safe_view_hides_correct_flags [⟨1, "q", [⟨1, "a", true⟩]⟩]
    [⟨1, "q", [⟨1, "a", false⟩]⟩]
    (List.Forall₂.cons ⟨rfl, rfl, List.Forall₂.cons ⟨rfl, rfl⟩ List.Forall₂.nil⟩
      List.Forall₂.nil)

end Quiz
